import Mathlib

/-!
Verification of the `loldownloader` repository (src/loldownloader.c) against its
natural-language specification.  The C program is shallowly embedded: each pure
decision or computation of the source is translated into an executable Lean
definition (machine `unsigned int` arithmetic is `Nat` with explicit `% 2^32`
where wrap-around matters, C `long`/`int` values are `Int`), and the claims of
the specification are settled as theorems about those definitions.
-/

set_option maxHeartbeats 1000000
set_option maxRecDepth 8000

namespace LolDownloader

/-! ## Transfer decisions (TransferManager)

The source implements the skip / resume / full-fetch choice three times:
for each BIN archive (`download_BIN_archive`, loldownloader.c:399-444), for the
manifest (`main`, loldownloader.c:721-751) and for individually fetched files
(`download_individual_file`, loldownloader.c:446-489).  Each of the decision
functions below is a direct transcription of the branch structure of one of
those code paths; the network and file I/O performed inside a chosen branch is
abstracted away, keeping only which transfer is issued.
-/

/-- Outcome of the existing-file branch logic shared by `download_BIN_archive`
and the packagemanifest block of `main`.  `resume startAt seed` records a
ranged GET issued with `CURLOPT_RESUME_FROM = startAt` and
`g_progressData.bytesAlreadyDownloaded = seed`. -/
inductive TransferDecision where
  | fullFetch
  | removeOnly
  | resume (startAt seedAlreadyDownloaded : ℕ)
  | skipExisting
  | warnLocalBigger
  deriving DecidableEq, Repr

/-- Branch structure of `download_BIN_archive` (loldownloader.c:399-444).
If the archive exists and `removeExistingFiles` is set, the file is removed and
the function returns without downloading (`removeOnly`); otherwise the local
size is compared with the probed remote size: strictly smaller resumes from
`localSize` seeding the progress counter with `localSize`, equal skips with an
"already exists" report, larger warns and leaves the file untouched.  An absent
archive is fetched in full. -/
def download_BIN_archive_decision (fileExists removeExistingFiles : Bool)
    (localSize remoteSize : ℕ) : TransferDecision :=
  if fileExists then
    if removeExistingFiles then .removeOnly
    else if localSize < remoteSize then .resume localSize localSize
    else if localSize = remoteSize then .skipExisting
    else .warnLocalBigger
  else .fullFetch

/-- Branch structure of the packagemanifest download in `main`
(loldownloader.c:721-751).  Identical to the archive path except that the
`removeExistingFiles` option is never consulted. -/
def packagemanifest_decision (fileExists : Bool) (localSize remoteSize : ℕ) :
    TransferDecision :=
  if fileExists then
    if localSize < remoteSize then .resume localSize localSize
    else if localSize = remoteSize then .skipExisting
    else .warnLocalBigger
  else .fullFetch

/-- Outcome of `download_individual_file` (loldownloader.c:446-489).  The
function never probes `file_size` or `file_size_remote`: it silently returns
when the final decompressed file exists (unless removal is requested), performs
a full GET only when the compressed file is absent, and otherwise decompresses
whatever compressed file is already on disk. -/
inductive IndividualDecision where
  | skipFinalExists
  | fetchThenDecompress
  | decompressExisting
  deriving DecidableEq, Repr

/-- Branch structure of `download_individual_file` (loldownloader.c:446-489). -/
def download_individual_file_decision (finalFileExists removeExistingFiles
    compressedExists : Bool) : IndividualDecision :=
  if finalFileExists && !removeExistingFiles then .skipFinalExists
  else if compressedExists then .decompressExisting
  else .fetchThenDecompress

/-- The network request a decision issues: nothing, a full GET, or a ranged GET. -/
inductive FetchClass where
  | noFetch
  | fullGet
  | rangedGet (startAt : ℕ)
  deriving DecidableEq, Repr

/-- Which request `download_BIN_archive` / the manifest block issues. -/
def TransferDecision.fetchClass : TransferDecision → FetchClass
  | .fullFetch => .fullGet
  | .removeOnly => .noFetch
  | .resume s _ => .rangedGet s
  | .skipExisting => .noFetch
  | .warnLocalBigger => .noFetch

/-- Which request `download_individual_file` issues. -/
def IndividualDecision.fetchClass : IndividualDecision → FetchClass
  | .skipFinalExists => .noFetch
  | .fetchThenDecompress => .fullGet
  | .decompressExisting => .noFetch

/-- C1: with `removeExistingFiles` not requested, the archive-download and
manifest-download paths take exactly the claimed transfer decision: an absent
destination is fetched in full; `local < remote` resumes from byte `local`
with the progress state's already-downloaded counter seeded to `local`;
`local = remote` skips with an "already exists" report; `local > remote` makes
no transfer and emits the size-mismatch warning. -/
theorem c1_transfer_decision_table (localSize remoteSize : ℕ) :
    (download_BIN_archive_decision false false localSize remoteSize =
        TransferDecision.fullFetch ∧
      packagemanifest_decision false localSize remoteSize =
        TransferDecision.fullFetch) ∧
    (localSize < remoteSize →
      download_BIN_archive_decision true false localSize remoteSize =
          TransferDecision.resume localSize localSize ∧
        packagemanifest_decision true localSize remoteSize =
          TransferDecision.resume localSize localSize) ∧
    (localSize = remoteSize →
      download_BIN_archive_decision true false localSize remoteSize =
          TransferDecision.skipExisting ∧
        packagemanifest_decision true localSize remoteSize =
          TransferDecision.skipExisting) ∧
    (remoteSize < localSize →
      download_BIN_archive_decision true false localSize remoteSize =
          TransferDecision.warnLocalBigger ∧
        packagemanifest_decision true localSize remoteSize =
          TransferDecision.warnLocalBigger) := by
  refine ⟨⟨rfl, rfl⟩, fun h => ?_, fun h => ?_, fun h => ?_⟩
  · simp [download_BIN_archive_decision, packagemanifest_decision, h]
  · simp [download_BIN_archive_decision, packagemanifest_decision, h]
  · have h1 : ¬ localSize < remoteSize := by omega
    have h2 : ¬ localSize = remoteSize := by omega
    simp [download_BIN_archive_decision, packagemanifest_decision, h1, h2]

/-- Witness for C1: a concrete instance of the resume row of the decision
table, with an existing 1-byte local file and a 2-byte remote file. -/
theorem c1_transfer_decision_table_witness :
    download_BIN_archive_decision true false 1 2 =
        TransferDecision.resume 1 1 ∧
      packagemanifest_decision true 1 2 = TransferDecision.resume 1 1 :=
  (c1_transfer_decision_table 1 2).2.1 (by decide)

/-- C3 fails on the code: with the destination existing, removal not
requested, and local size 1 strictly below remote size 2, the archive path
issues a ranged resume while `download_individual_file` issues no transfer at
all — the individual-file path does not perform the three-way size comparison,
so the transfer decisions of the paths differ on this size class. -/
theorem c3_counterexample :
    IndividualDecision.fetchClass
        (download_individual_file_decision true false true) ≠
      TransferDecision.fetchClass
        (download_BIN_archive_decision true false 1 2) := by
  decide

/-- C3 (amended): the manifest path makes the same decision as the archive
path (with removal not requested) for every size class, but the
individual-file path never issues a ranged resume: it either makes no
transfer or a full GET, fetching exactly when the compressed file is absent
and the final file is absent or scheduled for removal. -/
theorem c3_amended :
    (∀ (fileExists : Bool) (localSize remoteSize : ℕ),
      packagemanifest_decision fileExists localSize remoteSize =
        download_BIN_archive_decision fileExists false localSize remoteSize) ∧
    (∀ (finalFileExists removeExistingFiles compressedExists : Bool)
        (s : ℕ),
      IndividualDecision.fetchClass
          (download_individual_file_decision finalFileExists
            removeExistingFiles compressedExists) ≠
        FetchClass.rangedGet s) ∧
    (∀ finalFileExists removeExistingFiles compressedExists : Bool,
      IndividualDecision.fetchClass
          (download_individual_file_decision finalFileExists
            removeExistingFiles compressedExists) = FetchClass.fullGet ↔
        (finalFileExists = false ∨ removeExistingFiles = true) ∧
          compressedExists = false) := by
  refine ⟨fun ex l r => ?_, fun f rm c s => ?_, by decide⟩
  · cases ex <;>
      simp [packagemanifest_decision, download_BIN_archive_decision]
  · cases f <;> cases rm <;> cases c <;>
      simp [download_individual_file_decision, IndividualDecision.fetchClass]

/-- Witness for C3 (amended): at an existing 1-byte local file and 2-byte
remote file the manifest path agrees with the archive path. -/
theorem c3_amended_witness :
    packagemanifest_decision true 1 2 =
      download_BIN_archive_decision true false 1 2 :=
  c3_amended.1 true 1 2

/-! ## Progress estimator (progress_callback, loldownloader.c:208-257)

`progress_callback` keeps its state in a `ProgressData` of C `unsigned int`
fields; unsigned arithmetic is modelled on `ℕ` with explicit reduction
modulo `2^32`.  The callback's `double` arithmetic (the smoothing factor
computation) is modelled exactly on `ℚ`; the truncating store of the blended
speed into the `unsigned int` field is `Int.floor` (the value is
non-negative, so C's truncation toward zero is the floor).  The
`(unsigned int)(float)` casts applied to the `curl_off_t` byte counters are
modelled as reduction modulo `2^32` only (the `float` rounding of large byte
counts is immaterial to the claims settled here). -/

/-- `2^32`, the modulus of C `unsigned int` arithmetic. -/
def U32 : ℕ := 4294967296

/-- C unsigned 32-bit subtraction `a - b`. -/
def usub32 (a b : ℕ) : ℕ := (a % U32 + U32 - b % U32) % U32

/-- The `ProgressData` struct (loldownloader.c:76-81). -/
structure ProgressData where
  timeOld : ℕ
  bytesOld : ℕ
  avgSpeedInBytesPerSecond : ℕ
  bytesAlreadyDownloaded : ℕ
  deriving DecidableEq, Repr

/-- The smoothed-speed blend of loldownloader.c:221-224 as the exact value of
the C `double` expression: if the running average is zero it is first set to
the instantaneous speed, then
`SMOOTHING_FACTOR * speed + (1 - SMOOTHING_FACTOR) * avg` is formed with
`SMOOTHING_FACTOR = 0.1`. -/
def ewma_blendQ (avgPrev speed : ℕ) : ℚ :=
  (1 / 10 : ℚ) * speed +
    (9 / 10 : ℚ) * (if avgPrev = 0 then (speed : ℚ) else (avgPrev : ℚ))

/-- The value stored back into the `unsigned int` field
`avgSpeedInBytesPerSecond` (truncation of the non-negative blended value). -/
def ewma_update (avgPrev speed : ℕ) : ℕ := (ewma_blendQ avgPrev speed).floor.toNat

/-- Clamp applied at loldownloader.c:238-240: `if (bytesTotal < 1.0)
bytesTotal = 1;` with `bytesTotal` an `unsigned int`, so the test holds
exactly when the total is zero. -/
def progress_bytesTotalClamped (bytesTotal : ℕ) : ℕ :=
  if bytesTotal < 1 then 1 else bytesTotal

/-- The completion fraction of loldownloader.c:241, computed from the clamped
total. -/
def progress_percentage (bytesNow bytesTotal : ℕ) : ℚ :=
  (bytesNow : ℚ) / (progress_bytesTotalClamped bytesTotal : ℚ)

/-- The division performed by `build_ETA_string` (loldownloader.c:160-166):
`remaining` is the unsigned difference `bytesTotal - bytesNow` (exact
`unsigned int` arithmetic at line 162), and the source then evaluates
`(int)((float)remaining / speedInBytesPerSecond)` with no test on the
divisor.  The single-precision rounding of that quotient and of the `int`
cast is not modelled; the embedding records only which division the source
performs: `none` when the zero-divisor path is reached (a floating-point
division by zero — no trap, but an infinite or NaN quotient whose `int` cast
is unspecified, with no guard or sentinel branch in the source), and
otherwise `some (remaining, divisor)`, the operand pair handed to the float
division. -/
def build_ETA_division (bytesTotal bytesNow speedInBytesPerSecond : ℕ) :
    Option (ℕ × ℕ) :=
  if speedInBytesPerSecond = 0 then none
  else some (usub32 bytesTotal bytesNow, speedInBytesPerSecond)

/-- The values shown by the display section of `progress_callback`
(loldownloader.c:233-254); `etaDivision` holds the operands of the ETA
division whose float quotient is rendered `HH:MM:SS`. -/
structure ProgressDisplay where
  percentage : ℚ
  speedShown : ℕ
  etaDivision : Option (ℕ × ℕ)

/-- One invocation of `progress_callback` (loldownloader.c:208-257): the
updated `ProgressData` plus the display it prints (`none` on the coalesced
early return of loldownloader.c:227-229).  In the sampled branch
(`timeOld + 1000 <= timeNow`) the instantaneous speed is the unsigned byte
delta since the previous sample and the average is blended by `ewma_update`;
otherwise the state is unchanged and the previous average is shown when the
transfer has just completed. -/
def progress_callback_step (pd : ProgressData) (dltotal dlnow timeNow : ℕ) :
    ProgressData × Option ProgressDisplay :=
  let bytesNow := (dlnow + pd.bytesAlreadyDownloaded) % U32
  let bytesTotal := (dltotal + pd.bytesAlreadyDownloaded) % U32
  if pd.timeOld + 1000 ≤ timeNow then
    let speed := usub32 bytesNow pd.bytesOld
    let newAvg := ewma_update pd.avgSpeedInBytesPerSecond speed
    ({ pd with
        timeOld := timeNow
        avgSpeedInBytesPerSecond := newAvg
        bytesOld := bytesNow },
      some { percentage := progress_percentage bytesNow bytesTotal,
             speedShown := speed,
             etaDivision :=
               build_ETA_division (progress_bytesTotalClamped bytesTotal)
                 bytesNow newAvg })
  else if bytesNow < bytesTotal then (pd, none)
  else
    (pd,
      some { percentage := progress_percentage bytesNow bytesTotal,
             speedShown := pd.avgSpeedInBytesPerSecond,
             etaDivision :=
               build_ETA_division (progress_bytesTotalClamped bytesTotal)
                 bytesNow pd.avgSpeedInBytesPerSecond })

/-- C5 fails on the code: `build_ETA_string` performs its division
unconditionally, so with a zero average speed the division-by-zero path is
reached (modelled by `none`) — there is no guard and no sentinel branch in the
source. -/
theorem c5_counterexample : build_ETA_division 100 0 0 = none := rfl

/-- C5 (amended): the ETA computation reaches its division with a zero
divisor exactly when the average speed is zero — no guard and no sentinel
branch exists in the source (because the division is floating-point, no
arithmetic fault is raised there); for every nonzero average the division is
performed on the unsigned remaining byte count and the average speed. -/
theorem c5_amended (bytesTotal bytesNow speedInBytesPerSecond : ℕ) :
    (build_ETA_division bytesTotal bytesNow speedInBytesPerSecond = none ↔
      speedInBytesPerSecond = 0) ∧
    (speedInBytesPerSecond ≠ 0 →
      build_ETA_division bytesTotal bytesNow speedInBytesPerSecond =
        some (usub32 bytesTotal bytesNow, speedInBytesPerSecond)) := by
  constructor
  · constructor
    · intro h
      by_contra hs
      simp [build_ETA_division, hs] at h
    · intro h
      simp [build_ETA_division, h]
  · intro h
    simp [build_ETA_division, h]

/-- Witness for C5 (amended): with total 10, now 4 and average speed 2 the
division receives the remaining count 6 and the divisor 2. -/
theorem c5_amended_witness :
    build_ETA_division 10 4 2 = some (usub32 10 4, 2) :=
  (c5_amended 10 4 2).2 (by decide)

/-- C6: on every sampled callback (at least one second since the previous
sample) the stored average is `ewma_update` of the previous average and the
instantaneous speed; the blend equals `0.1 * instant + 0.9 * previous` when
the previous average is nonzero, while a zero previous average (in particular
the very first sample, since the state is zeroed at transfer start) stores the
instantaneous speed directly rather than blending with zero. -/
theorem c6_ewma_update (pd : ProgressData) (dltotal dlnow timeNow : ℕ)
    (hsampled : pd.timeOld + 1000 ≤ timeNow) :
    ((progress_callback_step pd dltotal dlnow timeNow).1.avgSpeedInBytesPerSecond
        = ewma_update pd.avgSpeedInBytesPerSecond
            (usub32 ((dlnow + pd.bytesAlreadyDownloaded) % U32) pd.bytesOld)) ∧
    (∀ speed : ℕ, pd.avgSpeedInBytesPerSecond = 0 →
      ewma_update pd.avgSpeedInBytesPerSecond speed = speed) ∧
    (∀ speed : ℕ, pd.avgSpeedInBytesPerSecond ≠ 0 →
      ewma_blendQ pd.avgSpeedInBytesPerSecond speed =
        (1 / 10 : ℚ) * speed +
          (9 / 10 : ℚ) * pd.avgSpeedInBytesPerSecond) := by
  refine ⟨?_, ?_, ?_⟩
  · simp only [progress_callback_step, if_pos hsampled]
  · intro speed h0
    rw [h0]
    have hblend : ewma_blendQ 0 speed = (speed : ℚ) := by
      rw [ewma_blendQ, if_pos rfl]
      ring
    rw [ewma_update, hblend]
    rw [show ((speed : ℚ)).floor = ⌊(speed : ℚ)⌋ from rfl, Int.floor_natCast]
    exact Int.toNat_natCast speed
  · intro speed hne
    simp [ewma_blendQ, hne]

/-- Witness for C6: starting from the zeroed state, a sample 1000 ms in with
5 bytes downloaded stores the instantaneous speed 5 directly. -/
theorem c6_ewma_update_witness :
    (progress_callback_step ⟨0, 0, 0, 0⟩ 10 5 1000).1.avgSpeedInBytesPerSecond
      = 5 := by
  have h := c6_ewma_update ⟨0, 0, 0, 0⟩ 10 5 1000 (by decide)
  rw [h.1, show usub32 ((5 + 0) % U32) 0 = 5 by decide]
  exact h.2.1 5 rfl

/-- C9: the byte total used by the display section of `progress_callback` is
clamped to at least 1 before the completion percentage is formed, so the
percentage's division is by a positive denominator even when the transfer
reports a zero total (`progress_percentage` times the clamped total always
recovers the numerator, which a division by zero would not). -/
theorem c9_total_clamped (bytesNow bytesTotal : ℕ) :
    1 ≤ progress_bytesTotalClamped bytesTotal ∧
    progress_percentage bytesNow bytesTotal *
        (progress_bytesTotalClamped bytesTotal : ℚ) = (bytesNow : ℚ) := by
  have hpos : 1 ≤ progress_bytesTotalClamped bytesTotal := by
    unfold progress_bytesTotalClamped
    split <;> omega
  refine ⟨hpos, ?_⟩
  have hne : (progress_bytesTotalClamped bytesTotal : ℚ) ≠ 0 := by
    have : progress_bytesTotalClamped bytesTotal ≠ 0 := by omega
    exact_mod_cast this
  rw [progress_percentage, div_mul_cancel₀ _ hne]

/-! ## Extractor (extract_from_BIN, loldownloader.c:333-397)

The archive on disk is a byte list (bytes as naturals); a missing archive is
`none`.  After the archive is opened, the source opens both the compressed
destination `entry->fileName` and the final decompressed destination with
mode `"wb"`, truncating each to length zero, and only then seeks and reads.
`malloc` success and `fwrite` success are failure-injection parameters
(`fwrite` to a freshly opened file either writes everything or, on failure,
reports 0 items written); `fread` is deterministic: positioned at
`offsetInBIN` it returns `min size (length - offsetInBIN)` bytes.  The bytes
of the staging buffer beyond the read count keep their uninitialized content,
modelled as `junkByte`.  The decompression collaborator `inf` is an opaque
function parameter. -/

/-- How one `extract_from_BIN` call ended. -/
inductive ExtractTag where
  | binMissing
  | allocFailed
  | readFailed
  | writeFailed
  | ok
  deriving DecidableEq, Repr

/-- Result of one `extract_from_BIN` call: the tag plus the contents on disk,
after the call returns, at the compressed path `entry->fileName` and at the
final decompressed path (`entry->fileName` with its last extension stripped). -/
structure ExtractOutcome where
  tag : ExtractTag
  compressed : Option (List ℕ)
  finalContent : Option (List ℕ)
  deriving DecidableEq, Repr

/-- `extract_from_BIN` (loldownloader.c:333-397).  Control flow of the source:
a missing archive prints an error and exits before anything is opened
(`binMissing`, prior contents untouched); otherwise both destinations are
truncated to empty by `fopen(..., "wb")`, then a failed `malloc` returns with
a diagnostic (`allocFailed`); then `fread` at `offsetInBIN` yields
`min size (length - offsetInBIN)` bytes and only a zero return is caught
(`readFailed`) — the guard is `!fread(...)`, so a positive short read falls
through and `fwrite` emits `size` bytes: the bytes actually read followed by
uninitialized staging memory; a failed `fwrite` returns with a diagnostic
(`writeFailed`); on success the compressed bytes are decompressed into the
final file and the compressed file is removed. -/
def extract_from_BIN (archive : Option (List ℕ)) (offsetInBIN size junkByte : ℕ)
    (allocOk writeOk : Bool) (infFn : List ℕ → List ℕ)
    (priorCompressed priorFinal : Option (List ℕ)) : ExtractOutcome :=
  match archive with
  | none =>
    { tag := .binMissing, compressed := priorCompressed,
      finalContent := priorFinal }
  | some a =>
    if allocOk then
      let readCount := min size (a.length - offsetInBIN)
      if readCount = 0 then
        { tag := .readFailed, compressed := some [], finalContent := some [] }
      else if writeOk then
        let temp := (a.drop offsetInBIN).take size ++
          List.replicate (size - readCount) junkByte
        { tag := .ok, compressed := none, finalContent := some (infFn temp) }
      else
        { tag := .writeFailed, compressed := some [], finalContent := some [] }
    else
      { tag := .allocFailed, compressed := some [], finalContent := some [] }

/-- C4 is right and the code is wrong: on an archive holding a single byte 7,
extracting a file of declared size 2 at offset 0 makes `fread` return 1 byte —
a short read — yet the `!fread(...)` guard catches only a zero return, so no
diagnostic is emitted and the file is not abandoned: extraction "succeeds",
writing the full 2-byte range, the second byte being uninitialized staging
memory (here 99), and hands it to decompression (`id` in this run). -/
theorem c4_short_read_not_detected :
    min 2 (List.length [7] - 0) = 1 ∧
    extract_from_BIN (some [7]) 0 2 99 true true id none none =
      { tag := ExtractTag.ok, compressed := none,
        finalContent := some [7, 99] } := by
  exact ⟨rfl, rfl⟩

/-- C10: whenever `extract_from_BIN` found its archive but then failed —
staging allocation failure, a read caught by the zero-return guard, or a
failed write — the returned disk state has a zero-length file at the final
destination path (and at the intermediate compressed path), because both were
truncated by `fopen(..., "wb")` before any bytes were read from the archive. -/
theorem c10_failure_leaves_empty_final (a : List ℕ)
    (offsetInBIN size junkByte : ℕ) (allocOk writeOk : Bool)
    (infFn : List ℕ → List ℕ) (priorCompressed priorFinal : Option (List ℕ))
    (hfail :
      (extract_from_BIN (some a) offsetInBIN size junkByte allocOk writeOk
          infFn priorCompressed priorFinal).tag = ExtractTag.allocFailed ∨
      (extract_from_BIN (some a) offsetInBIN size junkByte allocOk writeOk
          infFn priorCompressed priorFinal).tag = ExtractTag.readFailed ∨
      (extract_from_BIN (some a) offsetInBIN size junkByte allocOk writeOk
          infFn priorCompressed priorFinal).tag = ExtractTag.writeFailed) :
    (extract_from_BIN (some a) offsetInBIN size junkByte allocOk writeOk
        infFn priorCompressed priorFinal).finalContent = some [] ∧
    (extract_from_BIN (some a) offsetInBIN size junkByte allocOk writeOk
        infFn priorCompressed priorFinal).compressed = some [] := by
  by_cases ha : allocOk = true
  · by_cases hr : min size (a.length - offsetInBIN) = 0
    · simp [extract_from_BIN, ha, hr]
    · by_cases hw : writeOk = true
      · exfalso
        rcases hfail with h | h | h <;>
          simp [extract_from_BIN, ha, hr, hw] at h
      · simp [extract_from_BIN, ha, hr, hw]
  · simp [extract_from_BIN, ha]

/-- Witness for C10: a failed staging allocation on an empty archive leaves
zero-length files at both destinations. -/
theorem c10_failure_leaves_empty_final_witness :
    (extract_from_BIN (some []) 0 0 0 false true id none none).finalContent =
        some [] ∧
    (extract_from_BIN (some []) 0 0 0 false true id none none).compressed =
        some [] :=
  c10_failure_leaves_empty_final [] 0 0 0 false true id none none
    (Or.inl rfl)

/-! ## Manifest parser (get_files_using_packagemanifest, loldownloader.c:501-557)

The manifest is modelled as the list of lines `fgets` returns: each element
keeps its trailing line terminator (`"\r\n"` for a well-formed manifest) and
is assumed shorter than the 256-byte `fgets` buffer.  The C string routines
the parser uses are embedded over `List Char`: `strtok` with delimiter `","`
(maximal non-comma runs, empty fields skipped), `strstr`/`strchr` for the
`"files/"` marker, `strtol(_, 0, 16)` and `atoi`.  C numeric conversions are
explicit: `long` saturates at `±2^63` (`strtol` overflow clamps to
`LONG_MAX`/`LONG_MIN`), storing into an `unsigned int` reduces modulo `2^32`.
-/

/-- The `Options` struct (loldownloader.c:28-36). -/
structure Options where
  useBINFiles : Bool
  removeExistingFiles : Bool
  keepBINFiles : Bool
  downloadURL : String
  downloadPath : String
  gameVersion : String
  destFolder : String
  deriving Repr

/-- C `isspace` on the default locale. -/
def isSpaceC (c : Char) : Bool := c.toNat = 32 || (9 ≤ c.toNat && c.toNat ≤ 13)

/-- Value of a hexadecimal digit character, if any. -/
def hexDigitVal (c : Char) : Option ℕ :=
  if 48 ≤ c.toNat ∧ c.toNat ≤ 57 then some (c.toNat - 48)
  else if 97 ≤ c.toNat ∧ c.toNat ≤ 102 then some (c.toNat - 87)
  else if 65 ≤ c.toNat ∧ c.toNat ≤ 70 then some (c.toNat - 55)
  else none

/-- Value of a decimal digit character, if any. -/
def decDigitVal (c : Char) : Option ℕ :=
  if 48 ≤ c.toNat ∧ c.toNat ≤ 57 then some (c.toNat - 48) else none

/-- Greedy fold over leading hexadecimal digits. -/
def hexDigitsVal : List Char → ℕ → ℕ
  | [], acc => acc
  | c :: rest, acc =>
    match hexDigitVal c with
    | some d => hexDigitsVal rest (16 * acc + d)
    | none => acc

/-- Greedy fold over leading decimal digits. -/
def decDigitsVal : List Char → ℕ → ℕ
  | [], acc => acc
  | c :: rest, acc =>
    match decDigitVal c with
    | some d => decDigitsVal rest (10 * acc + d)
    | none => acc

/-- Skip a `0x`/`0X` prefix, as `strtol` with base 16 does (when no
hexadecimal digit follows the prefix, `strtol` instead parses the leading
`0`, which also yields the value 0, so dropping the prefix unconditionally
preserves the returned value). -/
def drop0x : List Char → List Char
  | '0' :: 'x' :: rest => rest
  | '0' :: 'X' :: rest => rest
  | cs => cs

/-- `strtol(cs, 0, 16)`: skip spaces, optional sign, optional `0x`, then
greedy hexadecimal digits; overflow saturates at `LONG_MAX` / `LONG_MIN`. -/
def strtol16 (cs : List Char) : ℤ :=
  match cs.dropWhile isSpaceC with
  | '-' :: rest => -(min (hexDigitsVal (drop0x rest) 0) (2 ^ 63) : ℕ)
  | '+' :: rest => (min (hexDigitsVal (drop0x rest) 0) (2 ^ 63 - 1) : ℕ)
  | rest => (min (hexDigitsVal (drop0x rest) 0) (2 ^ 63 - 1) : ℕ)

/-- `atoi(cs)`: skip spaces, optional sign, then greedy decimal digits
(modelled via the `strtol` semantics glibc's `atoi` delegates to, with the
same `long` saturation). -/
def atoiInt (cs : List Char) : ℤ :=
  match cs.dropWhile isSpaceC with
  | '-' :: rest => -(min (decDigitsVal rest 0) (2 ^ 63) : ℕ)
  | '+' :: rest => (min (decDigitsVal rest 0) (2 ^ 63 - 1) : ℕ)
  | rest => (min (decDigitsVal rest 0) (2 ^ 63 - 1) : ℕ)

/-- Conversion of an integer value to C `unsigned int` (reduction mod `2^32`). -/
def toU32 (z : ℤ) : ℕ := (z % (4294967296 : ℤ)).toNat

/-- Conversion of an integer value to C `int` (two's complement wrap). -/
def toI32 (z : ℤ) : ℤ := (z + 2 ^ 31) % 2 ^ 32 - 2 ^ 31

/-- Split a character list at every comma (the raw field decomposition that
`strtok(line, ",")` walks through). -/
def splitFields : List Char → List (List Char)
  | [] => [[]]
  | c :: rest =>
    let r := splitFields rest
    if c = ',' then [] :: r
    else
      match r with
      | [] => [[c]]
      | f :: fs => (c :: f) :: fs

/-- The token sequence successive `strtok(_, ",")` calls return: maximal
non-comma runs, with empty fields skipped. -/
def strtokSplit (line : String) : List (List Char) :=
  (splitFields line.data).filter (fun f => !f.isEmpty)

/-- Index of the first occurrence of `pat` in a character list (`strstr`). -/
def firstOccurAux (pat : List Char) : List Char → Option ℕ
  | [] => if pat.isEmpty then some 0 else none
  | c :: rest =>
    if pat.isPrefixOf (c :: rest) then some 0
    else (firstOccurAux pat rest).map (· + 1)

/-- The destination-relative suffix of the manifest's first field:
`strstr(line, "files/")` followed by `strchr(_, '/')` (loldownloader.c:527-528)
locates the first occurrence of `"files/"` and keeps the suffix from that
occurrence's slash on; `none` models the source dereferencing the null
`strstr` result (a crash aborting the run). -/
def filesMarkerSuffix (f1 : List Char) : Option (List Char) :=
  (firstOccurAux ("files/".data) f1).map (fun i => f1.drop (i + 5))

/-- The `FileEntry` struct (loldownloader.c:39-46); the `strncpy` length caps
(256/1024 bytes) are not modelled. -/
structure FileEntry where
  link : String
  fileName : String
  BIN : ℕ
  offsetInBIN : ℕ
  size : ℕ
  unk : ℤ
  deriving DecidableEq, Repr, Inhabited

/-- What one iteration of the manifest loop extracts from its line: the
`FileEntry` plus the raw `atoi` value of the size field, which the source
reads a second time into the `int` accumulator `totalSize`
(loldowloader.c:544-546). -/
structure ParsedLine where
  entry : FileEntry
  rawSize : ℤ
  deriving DecidableEq, Repr

/-- One iteration of the manifest parsing loop (loldownloader.c:517-554) on
one `fgets` line.  Field 1 names the file: the remote link appends it to the
download URL and path, the local name roots its `"files/"`-relative suffix
under the destination folder.  Field 2 is the archive tag: `strtol` reads hex
after skipping the fixed 6-character `"BIN_0x"` prefix, the value is stored
into the `unsigned int` `entry->BIN` and `assert(entry->BIN < MAX_BIN_COUNT)`
aborts the run when it is 32 or more.  Fields 3-5 are `atoi`-parsed.  Lines
the C code would crash or abort on (missing `"files/"` marker, fewer than five
tokens, failed assert) are `Except.error`. -/
def parse_manifest_fields (opts : Options) (f1 f2 f3 f4 f5 : List Char) :
    Except String ParsedLine :=
  match filesMarkerSuffix f1 with
  | none => .error "strstr: files marker not found"
  | some rel =>
    if toU32 (strtol16 (f2.drop 6)) < 32 then
      .ok { entry :=
              { link := opts.downloadURL ++ opts.downloadPath ++
                  String.mk f1
                fileName := opts.destFolder ++ String.mk rel
                BIN := toU32 (strtol16 (f2.drop 6))
                offsetInBIN := toU32 (atoiInt f3)
                size := toU32 (atoiInt f4)
                unk := toI32 (atoiInt f5) }
            rawSize := atoiInt f4 }
    else .error "assertion failed: entry BIN below MAX_BIN_COUNT"

/-- Dispatch of a line's `strtok` token list to the five fields the loop
reads (`strtok` returning null for a missing token crashes the C loop, and
tokens beyond the fifth are never requested). -/
def parse_manifest_tokens (opts : Options) :
    List (List Char) → Except String ParsedLine
  | f1 :: f2 :: f3 :: f4 :: f5 :: _ => parse_manifest_fields opts f1 f2 f3 f4 f5
  | _ => .error "strtok: missing manifest fields"

/-- One iteration of the manifest loop on one `fgets` line. -/
def parse_manifest_line (opts : Options) (line : String) :
    Except String ParsedLine :=
  parse_manifest_tokens opts (strtokSplit line)

/-- The state the manifest loop accumulates (the global `g_fileList` in
manifest order, the `hasBIN` membership array, and the `Statistics` fields
filled at loldownloader.c:511-514 and 556-557). -/
structure ParseResult where
  files : List FileEntry
  hasBIN : ℕ → Bool
  fileCount : ℕ
  totalSize : ℤ
  maxLineLength : ℕ

/-- State at loop entry: empty list, all-false `hasBIN`, zeroed counters. -/
def emptyParseResult : ParseResult :=
  { files := [], hasBIN := fun _ => false, fileCount := 0, totalSize := 0,
    maxLineLength := 0 }

/-- The `while (fgets(...))` loop of loldownloader.c:517-554: each line is
parsed, its entry appended to the file list (`list_add` appends at the tail,
preserving manifest order), `hasBIN[entry->BIN]` set, and the counters
updated; a line the C code crashes or aborts on stops the run. -/
def parse_manifest_lines (opts : Options) :
    List String → ParseResult → Except String ParseResult
  | [], st => .ok st
  | l :: ls, st =>
    match parse_manifest_line opts l with
    | .error e => .error e
    | .ok pl =>
      parse_manifest_lines opts ls
        { files := st.files ++ [pl.entry]
          hasBIN := fun j => if j = pl.entry.BIN then true else st.hasBIN j
          fileCount := st.fileCount + 1
          totalSize := st.totalSize + pl.rawSize
          maxLineLength := max st.maxLineLength l.length }

/-- The parsing phase of `get_files_using_packagemanifest`
(loldownloader.c:501-557): the first line must be exactly `"PKG1\r\n"`
(`strcmp` at loldownloader.c:505, mismatch prints the diagnostic and
`exit(0)`s; an empty file fails the `assert(fgets(...))`), then every further
line runs through the loop.  The function's later phases (archive-descriptor
synthesis, downloads, extraction, cleanup) drive the decision and extraction
models above and are not re-modelled here. -/
def get_files_using_packagemanifest (opts : Options) (lines : List String) :
    Except String ParseResult :=
  match lines with
  | [] => .error "assertion failed: fgets header line"
  | header :: rest =>
    if header = "PKG1\r\n" then parse_manifest_lines opts rest emptyParseResult
    else .error "BAD PACKAGEMANIFEST FILE!"

/-- A manifest line the parser accepts: at least five comma-delimited tokens,
a `"files/"` marker in the first, and an archive tag whose parsed value is in
bounds. -/
def wellFormedFieldsB (f1 f2 : List Char) : Bool :=
  (filesMarkerSuffix f1).isSome && decide (toU32 (strtol16 (f2.drop 6)) < 32)

/-- Acceptance on the token list of a line. -/
def wellFormedTokensB : List (List Char) → Bool
  | f1 :: f2 :: _ :: _ :: _ :: _ => wellFormedFieldsB f1 f2
  | _ => false

/-- A manifest line the parser accepts (tokens of `wellFormedFieldsB`). -/
def wellFormedLineB (line : String) : Bool :=
  wellFormedTokensB (strtokSplit line)

/-- The entry a well-formed line parses to (`default` on lines the parser
rejects; used only to state order preservation). -/
def parsedEntryD (opts : Options) (line : String) : FileEntry :=
  match parse_manifest_line opts line with
  | .ok pl => pl.entry
  | .error _ => default

/-- A successfully parsed field set carries an archive id below
`MAX_BIN_COUNT = 32`: the `assert` guards every path that builds an entry. -/
theorem parse_fields_ok_BIN_lt (opts : Options) (f1 f2 f3 f4 f5 : List Char)
    (pl : ParsedLine)
    (h : parse_manifest_fields opts f1 f2 f3 f4 f5 = .ok pl) :
    pl.entry.BIN < 32 := by
  rcases hrel : filesMarkerSuffix f1 with _ | rel
  · simp only [parse_manifest_fields, hrel] at h
    cases h
  · simp only [parse_manifest_fields, hrel] at h
    split_ifs at h with hb
    cases h
    exact hb

/-- A successfully parsed line always carries an archive id below 32. -/
theorem parse_ok_BIN_lt (opts : Options) (line : String) (pl : ParsedLine)
    (h : parse_manifest_line opts line = .ok pl) : pl.entry.BIN < 32 := by
  unfold parse_manifest_line at h
  rcases e : strtokSplit line with _ | ⟨f1, _ | ⟨f2, _ | ⟨f3, _ | ⟨f4, _ | ⟨f5, rest⟩⟩⟩⟩⟩ <;>
    rw [e] at h
  · exact Except.noConfusion h
  · exact Except.noConfusion h
  · exact Except.noConfusion h
  · exact Except.noConfusion h
  · exact Except.noConfusion h
  · exact parse_fields_ok_BIN_lt opts f1 f2 f3 f4 f5 pl h

/-- The entry a parsed line is recorded as. -/
theorem parsedEntryD_eq (opts : Options) (line : String) (pl : ParsedLine)
    (h : parse_manifest_line opts line = .ok pl) :
    parsedEntryD opts line = pl.entry := by
  unfold parsedEntryD
  rw [h]

/-- A line accepted by `wellFormedLineB` parses successfully. -/
theorem parse_ok_of_wellFormed (opts : Options) (line : String)
    (h : wellFormedLineB line = true) :
    ∃ pl, parse_manifest_line opts line = .ok pl := by
  unfold wellFormedLineB at h
  unfold parse_manifest_line
  rcases e : strtokSplit line with _ | ⟨f1, _ | ⟨f2, _ | ⟨f3, _ | ⟨f4, _ | ⟨f5, rest⟩⟩⟩⟩⟩ <;>
    rw [e] at h
  · exact Bool.noConfusion h
  · exact Bool.noConfusion h
  · exact Bool.noConfusion h
  · exact Bool.noConfusion h
  · exact Bool.noConfusion h
  · have h' : wellFormedFieldsB f1 f2 = true := h
    simp only [wellFormedFieldsB, Bool.and_eq_true, decide_eq_true_eq] at h'
    obtain ⟨hm, hb⟩ := h'
    rcases hrel : filesMarkerSuffix f1 with _ | rel
    · rw [hrel] at hm
      exact Bool.noConfusion hm
    · refine ⟨⟨⟨opts.downloadURL ++ opts.downloadPath ++ String.mk f1,
        opts.destFolder ++ String.mk rel, toU32 (strtol16 (f2.drop 6)),
        toU32 (atoiInt f3), toU32 (atoiInt f4), toI32 (atoiInt f5)⟩,
        atoiInt f4⟩, ?_⟩
      show parse_manifest_fields opts f1 f2 f3 f4 f5 = _
      simp only [parse_manifest_fields, hrel]
      rw [if_pos hb]

/-- If some line of the manifest body fails to parse, the whole loop fails
(the C loop crashes or aborts at the first such line). -/
theorem parse_manifest_lines_error_of_mem (opts : Options) (l : String)
    (herr : ∀ pl, parse_manifest_line opts l ≠ .ok pl) :
    ∀ (lines : List String), l ∈ lines →
      ∀ st, ∃ e, parse_manifest_lines opts lines st = .error e := by
  intro lines
  induction lines with
  | nil => intro hmem; cases hmem
  | cons x xs ih =>
    intro hmem st
    cases hx : parse_manifest_line opts x with
    | error e =>
      exact ⟨e, by simp only [parse_manifest_lines, hx]⟩
    | ok pl =>
      rcases List.mem_cons.mp hmem with rfl | hmem'
      · exact absurd hx (herr pl)
      · obtain ⟨e, he⟩ := ih hmem' _
        exact ⟨e, by simp only [parse_manifest_lines, hx]; exact he⟩

/-- The manifest loop on a list of accepted lines: it succeeds, appends the
parsed entries in line order after the incoming state, and marks exactly the
incoming archive ids plus the ids the lines reference. -/
theorem parse_manifest_lines_ok (opts : Options) (lines : List String) :
    ∀ st : ParseResult, (∀ l ∈ lines, wellFormedLineB l = true) →
    ∃ r, parse_manifest_lines opts lines st = .ok r ∧
      r.files = st.files ++ lines.map (parsedEntryD opts) ∧
      (∀ n, r.hasBIN n =
        (st.hasBIN n ||
          lines.any (fun l => (parsedEntryD opts l).BIN == n))) := by
  induction lines with
  | nil =>
    intro st _
    exact ⟨st, rfl, by simp, by simp⟩
  | cons l ls ih =>
    intro st h
    obtain ⟨pl, hpl⟩ := parse_ok_of_wellFormed opts l (h l (by simp))
    have hent : parsedEntryD opts l = pl.entry := parsedEntryD_eq opts l pl hpl
    obtain ⟨r, hr, hfiles, hbin⟩ := ih _ (fun x hx => h x (by simp [hx]))
    refine ⟨r, ?_, ?_, ?_⟩
    · simp only [parse_manifest_lines, hpl]
      exact hr
    · rw [hfiles]
      simp [hent]
    · intro n
      rw [hbin n, List.any_cons, hent]
      by_cases hn : n = pl.entry.BIN
      · subst hn
        simp
      · have hbeq : (pl.entry.BIN == n) = false :=
          beq_eq_false_iff_ne.mpr fun hc => hn hc.symm
        simp [hn, hbeq]

/-- C2: a manifest whose first line is the literal `PKG1` header followed by
well-formed lines parses to exactly one file descriptor per line, in manifest
line order (the i-th descriptor is the parse of the i-th line), and the
archive-id membership set holds an id exactly when some descriptor references
it. -/
theorem c2_manifest_parse_count_order_idset (opts : Options)
    (lines : List String) (hwf : ∀ l ∈ lines, wellFormedLineB l = true) :
    ∃ r, get_files_using_packagemanifest opts ("PKG1\r\n" :: lines) =
        .ok r ∧
      r.files.length = lines.length ∧
      r.files = lines.map (parsedEntryD opts) ∧
      (∀ n, r.hasBIN n = true ↔ n ∈ r.files.map FileEntry.BIN) := by
  obtain ⟨r, hr, hfiles, hbin⟩ :=
    parse_manifest_lines_ok opts lines emptyParseResult hwf
  rw [emptyParseResult] at hfiles hbin
  simp only [List.nil_append] at hfiles
  refine ⟨r, ?_, ?_, hfiles, ?_⟩
  · rw [get_files_using_packagemanifest, if_pos rfl]
    exact hr
  · rw [hfiles, List.length_map]
  · intro n
    rw [hbin n, hfiles]
    simp only [List.any_eq_true, List.mem_map, List.map_map, Bool.false_or,
      beq_iff_eq, Function.comp]

/-- Witness for C2: a two-line manifest (header plus one file line) yields one
descriptor and marks archive id 1. -/
def optsEx : Options :=
  ⟨true, false, false, "http://cdn", "/releases/live", "0.0.0.1", "lol"⟩

/-- One well-formed manifest body line referencing archive id 1. -/
def c2line : String := "/x/files/a.compressed,BIN_0x00000001,0,10,0\r\n"

/-- Witness for C2 at the concrete one-line manifest. -/
theorem c2_manifest_parse_count_order_idset_witness :
    ∃ r, get_files_using_packagemanifest optsEx ["PKG1\r\n", c2line] =
        .ok r ∧
      r.files.length = [c2line].length ∧
      r.files = [c2line].map (parsedEntryD optsEx) ∧
      (∀ n, r.hasBIN n = true ↔ n ∈ r.files.map FileEntry.BIN) :=
  c2_manifest_parse_count_order_idset optsEx [c2line] (by decide)

/-- C7: a manifest whose first line is not exactly the `"PKG1\r\n"` header
makes `get_files_using_packagemanifest` abort (the source prints the
diagnostic and calls `exit(0)`) with no file descriptors produced. -/
theorem c7_bad_header_aborts (opts : Options) (header : String)
    (rest : List String) (h : header ≠ "PKG1\r\n") :
    get_files_using_packagemanifest opts (header :: rest) =
        .error "BAD PACKAGEMANIFEST FILE!" ∧
      ∀ r, get_files_using_packagemanifest opts (header :: rest) ≠ .ok r := by
  have h1 : get_files_using_packagemanifest opts (header :: rest) =
      .error "BAD PACKAGEMANIFEST FILE!" := by
    rw [get_files_using_packagemanifest, if_neg h]
  exact ⟨h1, fun r hc => by rw [h1] at hc; cases hc⟩

/-- Witness for C7: the corrupted header `"PKG2\r\n"` aborts parsing. -/
theorem c7_bad_header_aborts_witness :
    get_files_using_packagemanifest optsEx ["PKG2\r\n"] =
      .error "BAD PACKAGEMANIFEST FILE!" :=
  (c7_bad_header_aborts optsEx "PKG2\r\n" [] (by decide)).1

/-- A manifest body line whose archive tag parses to id `0x20 = 32`. -/
def c8line : String := "/x/files/a.compressed,BIN_0x00000020,0,10,0\r\n"

/-- C8: the archive identifier a line stores (the tag's hex value read after
the fixed 6-character `"BIN_0x"` prefix, converted to the `unsigned int`
field) must be strictly below `MAX_BIN_COUNT = 32`: a line reaching the check
with a value of 32 or more never parses and makes the whole manifest run
abort, and every successfully parsed line has an id below 32. -/
theorem c8_archive_id_bound (opts : Options) (lines : List String)
    (l : String) (f1 f2 f3 f4 f5 : List Char) (rest : List (List Char))
    (hmem : l ∈ lines)
    (hsplit : strtokSplit l = f1 :: f2 :: f3 :: f4 :: f5 :: rest)
    (hmark : (filesMarkerSuffix f1).isSome = true)
    (hid : 32 ≤ toU32 (strtol16 (f2.drop 6))) :
    (∃ e, get_files_using_packagemanifest opts ("PKG1\r\n" :: lines) =
      .error e) ∧
    (∀ pl, parse_manifest_line opts l ≠ .ok pl) ∧
    (∀ (opts' : Options) (l' : String) (pl : ParsedLine),
      parse_manifest_line opts' l' = .ok pl → pl.entry.BIN < 32) := by
  rcases hrel : filesMarkerSuffix f1 with _ | rel
  · rw [hrel] at hmark
    exact absurd hmark (by simp)
  have herr : ∀ pl, parse_manifest_line opts l ≠ .ok pl := by
    intro pl hc
    unfold parse_manifest_line at hc
    rw [hsplit] at hc
    have hc' : parse_manifest_fields opts f1 f2 f3 f4 f5 = .ok pl := hc
    simp only [parse_manifest_fields, hrel] at hc'
    rw [if_neg (Nat.not_lt.mpr hid)] at hc'
    cases hc'
  refine ⟨?_, herr, fun opts' l' pl hok => parse_ok_BIN_lt opts' l' pl hok⟩
  obtain ⟨e, he⟩ :=
    parse_manifest_lines_error_of_mem opts l herr lines hmem emptyParseResult
  refine ⟨e, ?_⟩
  rw [get_files_using_packagemanifest, if_pos rfl]
  exact he

/-- Witness for C8: the concrete line with tag `BIN_0x00000020` (id 32)
aborts the whole run. -/
theorem c8_archive_id_bound_witness :
    ∃ e, get_files_using_packagemanifest optsEx ["PKG1\r\n", c8line] =
      .error e :=
  (c8_archive_id_bound optsEx [c8line] c8line
    ("/x/files/a.compressed".data) ("BIN_0x00000020".data) ("0".data)
    ("10".data) ("0\r\n".data) [] (by decide) (by decide) (by decide)
    (by decide)).1

end LolDownloader
